import Mathlib

/-!
# Verification of the salary-prediction trainer and optimizer

Shallow embedding of `src/main.py` (class `Model`, class `Run`) and
`src/tuning_hyperparams.py` (class `Optimize`).  Losses and salaries are
modelled as exact rationals; `np.inf` is the top element of `WithTop ℚ`.
Estimator fit/predict calls are opaque black-box services (spec §1), so they
enter the embedding as function parameters.
-/

namespace SalaryPred

/-- A training/test row: `jobId`, `salary` target, `kfold` assignment and the
engineered feature vector (the columns other than jobId/salary/kfold). -/
structure Row where
  jobId : ℕ
  salary : ℚ
  kfold : ℕ
  feats : List ℚ
deriving DecidableEq

/-- Python runtime errors raised by `main.py`. -/
inductive PyErr
  | noneNotCallable
  | assertionError
deriving DecidableEq

/-- The mutable state of `Model` (main.py, `Model.__init__` lines 36-45):
`fold_mse` list, `best_loss_fold` tracker (starts at `np.inf`), the
`mean_mse` insertion-ordered dict, and `best_model`.  `saves` records the
checkpoint-write events performed by `_save_model`. -/
structure CVState (M : Type) where
  fold_mse : List ℚ
  best_loss_fold : WithTop ℚ
  mean_mse : List (M × ℚ)
  saves : List (M × ℕ × ℚ)
  best_model : Option M

/-- `Model.__init__`: `fold_mse = []`, `best_loss_fold = np.inf`,
`mean_mse = {}`, `best_model = None`. -/
def initState {M : Type} : CVState M :=
  { fold_mse := [], best_loss_fold := ⊤, mean_mse := [], saves := [],
    best_model := none }

/-- `np.mean` on a list of rationals. -/
def meanQ (l : List ℚ) : ℚ := l.sum / l.length

/-- Python dict assignment `d[k] = v`: update the first binding of `k` in
place, else append (insertion order preserved). -/
def assocSet {M : Type} [DecidableEq M] :
    List (M × ℚ) → M → ℚ → List (M × ℚ)
  | [], k, v => [(k, v)]
  | p :: rest, k, v =>
      if p.1 = k then (k, v) :: rest else p :: assocSet rest k v

/-- One fold-loop body of `Model.cross_validate` (lines 70-75), given the
fold's loss value: `_save_model` writes a checkpoint and updates
`best_loss_fold` exactly when `loss < best_loss_fold` (lines 146-150), then
the loss is appended to `fold_mse` (line 75). -/
def foldStepL {M : Type} (m : M) (fold : ℕ) (loss : ℚ) (s : CVState M) :
    CVState M :=
  if (loss : WithTop ℚ) < s.best_loss_fold then
    { s with fold_mse := s.fold_mse ++ [loss],
             best_loss_fold := (loss : WithTop ℚ),
             saves := s.saves ++ [(m, fold, loss)] }
  else
    { s with fold_mse := s.fold_mse ++ [loss] }

/-- The fold-loop body where the fold's loss comes from the opaque
fit/predict/MSE pipeline `loss : M → ℕ → ℚ`. -/
def foldStep {M : Type} (loss : M → ℕ → ℚ) (m : M) (s : CVState M)
    (fold : ℕ) : CVState M :=
  foldStepL m fold (loss m fold) s

/-- `for fold in range(self.n_folds): ...` (lines 69-75). -/
def runFolds {M : Type} (loss : M → ℕ → ℚ) (m : M) (n_folds : ℕ)
    (s : CVState M) : CVState M :=
  (List.range n_folds).foldl (foldStep loss m) s

/-- Per-model body of `Model.cross_validate` (lines 68-77): run all folds,
reset `best_loss_fold = np.inf` (line 76), then store
`mean_mse[model] = np.mean(fold_mse)` (line 77).  Note `fold_mse` is NOT
cleared between models. -/
def modelStep {M : Type} [DecidableEq M] (loss : M → ℕ → ℚ) (n_folds : ℕ)
    (s : CVState M) (m : M) : CVState M :=
  let s' := runFolds loss m n_folds s
  { s' with best_loss_fold := ⊤,
            mean_mse := assocSet s'.mean_mse m (meanQ s'.fold_mse) }

/-- `Model.cross_validate` (lines 65-77): the outer loop over
`self.models`. -/
def cross_validate {M : Type} [DecidableEq M] (loss : M → ℕ → ℚ)
    (n_folds : ℕ) (models : List M) (s : CVState M) : CVState M :=
  models.foldl (modelStep loss n_folds) s

/-- C1 (code_bug): with two registered estimators `0` and `1`, one fold, and
per-fold losses `loss 0 0 = 0` and `loss 1 0 = 2`, `cross_validate` stores
mean loss `1` for estimator `1` — the mean of the accumulated list `[0, 2]`
(`fold_mse` is never cleared between estimators) — while the arithmetic mean
of estimator `1`'s own per-fold losses `[2]` is `2`.  So the stored mean is
not the mean of that estimator's own fold losses only, refuting the claim
as a property of the code. -/
theorem crossValidate_mean_accumulates_previous_models :
    (cross_validate (fun m _ => if m = 0 then 0 else 2) 1 [0, 1]
      (initState (M := ℕ))).mean_mse = [(0, 0), (1, 1)] ∧
    meanQ [2] = 2 ∧ (1 : ℚ) ≠ 2 := by
  refine ⟨?_, ?_, ?_⟩
  · have h2 : (2 : WithTop ℚ) < ⊤ := by
      exact_mod_cast WithTop.coe_lt_top (2 : ℚ)
    simp [cross_validate, modelStep, runFolds, foldStep, foldStepL, initState,
      meanQ, assocSet, List.range_succ, List.range_zero, h2]
  · norm_num [meanQ]
  · norm_num

/-- Steps of `Run.run_cv` that come after the `print(model.best_model())`
line: `best_model_fit` (the refit) and `best_model_predictions` (the
predictions write). -/
inductive RunEvent
  | refit
  | writePredictions
deriving DecidableEq

/-- `Run.run_cv` (main.py lines 346-358): build the `Model`, run
`cross_validate`, then evaluate `model.best_model()` — a call of the
`best_model` attribute, which raises `TypeError` when the attribute is still
`None` — and only afterwards `best_model_fit()` and
`best_model_predictions()`.  The returned event list records which of the
two later steps were reached. -/
def run_cv {M : Type} [DecidableEq M] (loss : M → ℕ → ℚ) (n_folds : ℕ)
    (models : List M) : Except PyErr Unit × List RunEvent :=
  let s := cross_validate loss n_folds models initState
  match s.best_model with
  | none => (.error .noneNotCallable, [])
  | some _ => (.ok (), [.refit, .writePredictions])

theorem foldl_foldStep_best_model {M : Type} (loss : M → ℕ → ℚ) (m : M) :
    ∀ (l : List ℕ) (s : CVState M),
      (l.foldl (foldStep loss m) s).best_model = s.best_model := by
  intro l
  induction l with
  | nil => intro s; rfl
  | cons f fs ih =>
      intro s
      rw [List.foldl_cons, ih]
      unfold foldStep foldStepL
      split <;> rfl

theorem cross_validate_best_model {M : Type} [DecidableEq M]
    (loss : M → ℕ → ℚ) (n_folds : ℕ) :
    ∀ (models : List M) (s : CVState M),
      (cross_validate loss n_folds models s).best_model = s.best_model := by
  intro models
  induction models with
  | nil => intro s; rfl
  | cons m ms ih =>
      intro s
      show (cross_validate loss n_folds ms (modelStep loss n_folds s m)).best_model = _
      rw [ih]
      show (runFolds loss m n_folds s).best_model = s.best_model
      exact foldl_foldStep_best_model loss m _ s

/-- C2: for every invocation of `Run.run_cv` (any losses, fold count and
registered models), after `cross_validate` returns the `best_model`
attribute is still `None` (`select_best_model` is never invoked), so the
`model.best_model()` call raises and neither the refit (`best_model_fit`)
nor the predictions write (`best_model_predictions`) is ever reached. -/
theorem runCv_raises_before_refit {M : Type} [DecidableEq M]
    (loss : M → ℕ → ℚ) (n_folds : ℕ) (models : List M) :
    (cross_validate loss n_folds models (initState (M := M))).best_model
      = none ∧
    run_cv loss n_folds models = (.error PyErr.noneNotCallable, []) := by
  have h : (cross_validate loss n_folds models
      (initState (M := M))).best_model = none :=
    cross_validate_best_model loss n_folds models initState
  exact ⟨h, by simp [run_cv, h]⟩

/-- `Model._get_data` (main.py lines 79-97): fit partition = training rows
with `kfold != fold`, validation partition = rows with `kfold == fold`
(`reset_index` only renumbers the rows and is a no-op in this model). -/
def get_data (train_df : List Row) (fold : ℕ) : List Row × List Row :=
  (train_df.filter (fun r => r.kfold != fold),
   train_df.filter (fun r => r.kfold == fold))

/-- C7: for every fold index `fold < n_folds`, the fit partition of
`_get_data` consists exactly of the training rows whose fold id differs
from `fold`, the validation partition exactly of those whose fold id equals
`fold`; no row lies in both, and the two together are a permutation of the
training rows. -/
theorem getData_fold_partition (train_df : List Row) (n_folds fold : ℕ)
    (hfold : fold < n_folds) :
    (∀ r, r ∈ (get_data train_df fold).1 ↔ r ∈ train_df ∧ r.kfold ≠ fold) ∧
    (∀ r, r ∈ (get_data train_df fold).2 ↔ r ∈ train_df ∧ r.kfold = fold) ∧
    (∀ r, ¬(r ∈ (get_data train_df fold).1 ∧
            r ∈ (get_data train_df fold).2)) ∧
    List.Perm ((get_data train_df fold).1 ++ (get_data train_df fold).2)
      train_df := by
  refine ⟨?_, ?_, ?_, ?_⟩
  · intro r; simp [get_data, List.mem_filter]
  · intro r; simp [get_data, List.mem_filter]
  · rintro r ⟨h1, h2⟩
    simp [get_data, List.mem_filter] at h1 h2
    exact h1.2 h2.2
  · have heq : train_df.filter (fun r => r.kfold == fold)
        = train_df.filter (fun r => !(r.kfold != fold)) := by
      apply List.filter_congr
      intro r _
      simp [bne]
    show List.Perm (train_df.filter (fun r => r.kfold != fold) ++
      train_df.filter (fun r => r.kfold == fold)) train_df
    rw [heq]
    exact List.filter_append_perm (fun r => r.kfold != fold) train_df

/-- Witness for C7 at a concrete input: two training rows with fold ids 0
and 1, `n_folds = 2`, `fold = 0`. -/
theorem getData_fold_partition_witness :
    (0 < 2) ∧
    ((∀ r, r ∈ (get_data [⟨1, 100, 0, []⟩, ⟨2, 90, 1, []⟩] 0).1 ↔
        r ∈ [⟨1, 100, 0, []⟩, ⟨2, 90, 1, []⟩] ∧ r.kfold ≠ 0) ∧
     (∀ r, r ∈ (get_data [⟨1, 100, 0, []⟩, ⟨2, 90, 1, []⟩] 0).2 ↔
        r ∈ [⟨1, 100, 0, []⟩, ⟨2, 90, 1, []⟩] ∧ r.kfold = 0) ∧
     (∀ r, ¬(r ∈ (get_data [⟨1, 100, 0, []⟩, ⟨2, 90, 1, []⟩] 0).1 ∧
            r ∈ (get_data [⟨1, 100, 0, []⟩, ⟨2, 90, 1, []⟩] 0).2)) ∧
     List.Perm ((get_data [⟨1, 100, 0, []⟩, ⟨2, 90, 1, []⟩] 0).1 ++
        (get_data [⟨1, 100, 0, []⟩, ⟨2, 90, 1, []⟩] 0).2)
        [⟨1, 100, 0, []⟩, ⟨2, 90, 1, []⟩]) :=
  ⟨by decide, getData_fold_partition [⟨1, 100, 0, []⟩, ⟨2, 90, 1, []⟩] 2 0
    (by decide)⟩

/-- `Model.best_model_predictions` (main.py lines 168-187): compute the
predictions with the opaque `predict` service; when `save_predictions` is
set, `assert len(job_ids) == len(self.predictions)` and only then build the
two-column frame `{jobId, predicted_salary}` and write `predictions.csv`.
The second component lists the files written (file name with its rows). -/
def best_model_predictions (predictFn : List Row → List ℚ)
    (test_df : List Row) (save_predictions : Bool) :
    Except PyErr (List ℚ) × List (String × List (ℕ × ℚ)) :=
  let preds := predictFn test_df
  if save_predictions then
    let job_ids := test_df.map Row.jobId
    if job_ids.length = preds.length then
      (Except.ok preds, [("predictions.csv", job_ids.zip preds)])
    else
      (Except.error PyErr.assertionError, [])
  else
    (Except.ok preds, [])

/-- C5: at the final output step, if the number of predictions disagrees
with the number of test-row ids the operation fails (the shape assertion
raises) and no file is written; when the counts agree the paired output is
written. -/
theorem bestModelPredictions_shape_check (predictFn : List Row → List ℚ)
    (test_df : List Row) :
    ((test_df.map Row.jobId).length ≠ (predictFn test_df).length →
      best_model_predictions predictFn test_df true
        = (Except.error PyErr.assertionError, [])) ∧
    ((test_df.map Row.jobId).length = (predictFn test_df).length →
      best_model_predictions predictFn test_df true
        = (Except.ok (predictFn test_df),
           [("predictions.csv",
             (test_df.map Row.jobId).zip (predictFn test_df))])) := by
  constructor <;> intro h <;> simp at h <;> simp [best_model_predictions, h]

/-- Witness for C5: a one-row test table with zero predictions fails the
shape check and writes nothing; with one prediction the output is
written. -/
theorem bestModelPredictions_shape_check_witness :
    best_model_predictions (fun _ => []) [⟨1, 0, 0, []⟩] true
      = (Except.error PyErr.assertionError, []) ∧
    best_model_predictions (fun _ => [5]) [⟨1, 0, 0, []⟩] true
      = (Except.ok [5], [("predictions.csv", [(1, 5)])]) :=
  ⟨(bestModelPredictions_shape_check (fun _ => []) [⟨1, 0, 0, []⟩]).1
      (by decide),
   (bestModelPredictions_shape_check (fun _ => [5]) [⟨1, 0, 0, []⟩]).2
      (by decide)⟩

/-- C6: when one prediction per test row is produced, the written
predictions artifact has exactly two columns (`jobId` and
`predicted_salary`), one row per test record, and row `i` pairs the `i`-th
test id with the `i`-th prediction — the test table's original order. -/
theorem predictions_artifact_shape (predictFn : List Row → List ℚ)
    (test_df : List Row)
    (h : (predictFn test_df).length = test_df.length) :
    ∃ rows : List (ℕ × ℚ), ∃ hr : rows.length = test_df.length,
      best_model_predictions predictFn test_df true
        = (Except.ok (predictFn test_df), [("predictions.csv", rows)]) ∧
      ∀ i : Fin test_df.length,
        rows.get (Fin.cast hr.symm i)
          = ((test_df.get i).jobId,
             (predictFn test_df).get (Fin.cast h.symm i)) := by
  refine ⟨(test_df.map Row.jobId).zip (predictFn test_df), ?_, ?_, ?_⟩
  · simp [h]
  · simp [best_model_predictions, h]
  · intro i
    simp [List.get_eq_getElem, List.getElem_zip, List.getElem_map]

/-- Witness for C6: a two-row test table with two predictions. -/
theorem predictions_artifact_shape_witness :
    ((fun _ : List Row => [(5 : ℚ), 7]) [⟨1, 0, 0, []⟩, ⟨2, 0, 0, []⟩]).length
      = ([⟨1, 0, 0, []⟩, ⟨2, 0, 0, []⟩] : List Row).length ∧
    ∃ rows : List (ℕ × ℚ),
      ∃ hr : rows.length = ([⟨1, 0, 0, []⟩, ⟨2, 0, 0, []⟩] : List Row).length,
      best_model_predictions (fun _ : List Row => [(5 : ℚ), 7])
          [⟨1, 0, 0, []⟩, ⟨2, 0, 0, []⟩] true
        = (Except.ok ((fun _ : List Row => [(5 : ℚ), 7]) [⟨1, 0, 0, []⟩, ⟨2, 0, 0, []⟩]),
           [("predictions.csv", rows)]) ∧
      ∀ i : Fin ([⟨1, 0, 0, []⟩, ⟨2, 0, 0, []⟩] : List Row).length,
        rows.get (Fin.cast hr.symm i)
          = ((([⟨1, 0, 0, []⟩, ⟨2, 0, 0, []⟩] : List Row).get i).jobId,
             ((fun _ : List Row => [(5 : ℚ), 7])
                [⟨1, 0, 0, []⟩, ⟨2, 0, 0, []⟩]).get (Fin.cast (by decide) i)) :=
  ⟨by decide,
   predictions_artifact_shape (fun _ : List Row => [(5 : ℚ), 7])
     [⟨1, 0, 0, []⟩, ⟨2, 0, 0, []⟩] (by decide)⟩

/-- The scan performed by CPython's `min(iterable, key=...)`: walk the
entries left to right keeping the current minimum, replacing it only when a
strictly smaller key value appears (so on exact ties the earlier entry is
kept). -/
def pyMinGo {M : Type} : (M × ℚ) → List (M × ℚ) → (M × ℚ)
  | best, [] => best
  | best, p :: rest =>
      if p.2 < best.2 then pyMinGo p rest else pyMinGo best rest

/-- `Model.select_best_model` (main.py lines 156-159):
`min(self.mean_mse, key=self.mean_mse.get)` over the insertion-ordered
mean-loss dict; `none` models the `ValueError` CPython raises on an empty
dict. -/
def select_best_model {M : Type} : List (M × ℚ) → Option M
  | [] => none
  | p :: rest => some (pyMinGo p rest).1

theorem pyMinGo_spec {M : Type} :
    ∀ (l : List (M × ℚ)) (best : M × ℚ),
      ∃ (i : ℕ) (hi : i < (best :: l).length),
        pyMinGo best l = (best :: l).get ⟨i, hi⟩ ∧
        (∀ p ∈ best :: l, (pyMinGo best l).2 ≤ p.2) ∧
        (∀ j (hj : j < (best :: l).length), j < i →
          (pyMinGo best l).2 < ((best :: l).get ⟨j, hj⟩).2) := by
  intro l
  induction l with
  | nil =>
      intro best
      refine ⟨0, by simp, rfl, ?_, ?_⟩
      · intro p hp
        rw [List.mem_singleton] at hp
        rw [hp]
        exact le_refl best.2
      · intro j hj hj0
        exact absurd hj0 (Nat.not_lt_zero j)
  | cons p rest ih =>
      intro best
      by_cases hp : p.2 < best.2
      · have hgo : pyMinGo best (p :: rest) = pyMinGo p rest := by
          show (if p.2 < best.2 then pyMinGo p rest else pyMinGo best rest)
            = pyMinGo p rest
          rw [if_pos hp]
        obtain ⟨i, hi, heq, hmin, hfirst⟩ := ih p
        refine ⟨i + 1, by simpa using hi, ?_, ?_, ?_⟩
        · rw [hgo]
          exact heq
        · intro q hq
          rw [hgo]
          rcases List.mem_cons.mp hq with hq | hq
          · have h1 : (pyMinGo p rest).2 ≤ p.2 := hmin p (List.mem_cons_self p rest)
            rw [hq]
            exact le_of_lt (lt_of_le_of_lt h1 hp)
          · exact hmin q hq
        · intro j hj hji
          rw [hgo]
          match j with
          | 0 =>
              have h1 : (pyMinGo p rest).2 ≤ p.2 := hmin p (List.mem_cons_self p rest)
              exact lt_of_le_of_lt h1 hp
          | j' + 1 =>
              have hj' : j' < (p :: rest).length := by
                simpa using hj
              have : (pyMinGo p rest).2 < ((p :: rest).get ⟨j', hj'⟩).2 :=
                hfirst j' hj' (Nat.lt_of_succ_lt_succ hji)
              exact this
      · have hgo : pyMinGo best (p :: rest) = pyMinGo best rest := by
          show (if p.2 < best.2 then pyMinGo p rest else pyMinGo best rest)
            = pyMinGo best rest
          rw [if_neg hp]
        have hbp : best.2 ≤ p.2 := le_of_not_lt hp
        obtain ⟨i, hi, heq, hmin, hfirst⟩ := ih best
        match i, hi with
        | 0, hi =>
            refine ⟨0, by simp, ?_, ?_, ?_⟩
            · rw [hgo]
              exact heq
            · intro q hq
              rw [hgo]
              rcases List.mem_cons.mp hq with hq | hq
              · rw [hq]
                exact hmin best (List.mem_cons_self best rest)
              · rcases List.mem_cons.mp hq with hq | hq
                · have h1 : (pyMinGo best rest).2 ≤ best.2 :=
                    hmin best (List.mem_cons_self best rest)
                  rw [hq]
                  exact le_trans h1 hbp
                · exact hmin q (List.mem_cons_of_mem best hq)
            · intro j hj hj0
              exact absurd hj0 (Nat.not_lt_zero j)
        | k + 1, hi =>
            have hk : k < rest.length := by
              simpa using hi
            refine ⟨k + 2, by simpa using hk, ?_, ?_, ?_⟩
            · rw [hgo]
              exact heq
            · intro q hq
              rw [hgo]
              rcases List.mem_cons.mp hq with hq | hq
              · rw [hq]
                exact hmin best (List.mem_cons_self best rest)
              · rcases List.mem_cons.mp hq with hq | hq
                · have h1 : (pyMinGo best rest).2 ≤ best.2 :=
                    hmin best (List.mem_cons_self best rest)
                  rw [hq]
                  exact le_trans h1 hbp
                · exact hmin q (List.mem_cons_of_mem best hq)
            · intro j hj hji
              rw [hgo]
              match j with
              | 0 =>
                  exact hfirst 0 (by simp) (Nat.succ_pos k)
              | 1 =>
                  have h1 : (pyMinGo best rest).2 < best.2 :=
                    hfirst 0 (by simp) (Nat.succ_pos k)
                  exact lt_of_lt_of_le h1 hbp
              | j' + 2 =>
                  have hj' : j' + 1 < (best :: rest).length := by
                    simpa using hj
                  have := hfirst (j' + 1) hj' (Nat.lt_of_succ_lt_succ hji)
                  exact this

/-- C3: `select_best_model` returns, among all estimators with a recorded
mean loss, one whose mean loss is less than or equal to every recorded mean
loss, and every entry inserted earlier in the mean-loss map has a strictly
larger mean loss — so on exact ties the first-registered estimator wins. -/
theorem selectBestModel_stable_minimum {M : Type} (l : List (M × ℚ))
    (hne : l ≠ []) :
    ∃ (i : ℕ) (hi : i < l.length),
      select_best_model l = some (l.get ⟨i, hi⟩).1 ∧
      (∀ p ∈ l, (l.get ⟨i, hi⟩).2 ≤ p.2) ∧
      (∀ j (hj : j < l.length), j < i →
        (l.get ⟨i, hi⟩).2 < (l.get ⟨j, hj⟩).2) := by
  match l, hne with
  | p :: rest, _ =>
      obtain ⟨i, hi, heq, hmin, hfirst⟩ := pyMinGo_spec rest p
      refine ⟨i, hi, ?_, ?_, ?_⟩
      · show some (pyMinGo p rest).1 = _
        rw [heq]
      · intro q hq
        rw [← heq]
        exact hmin q hq
      · intro j hj hji
        rw [← heq]
        exact hfirst j hj hji

/-- Witness for C3: two estimators with exactly equal mean loss 5; the
first-inserted estimator `0` is selected. -/
theorem selectBestModel_stable_minimum_witness :
    (([((0 : ℕ), (5 : ℚ)), (1, 5)] : List (ℕ × ℚ)) ≠ []) ∧
    ∃ (i : ℕ) (hi : i < ([((0 : ℕ), (5 : ℚ)), (1, 5)] : List (ℕ × ℚ)).length),
      select_best_model [((0 : ℕ), (5 : ℚ)), (1, 5)]
        = some (([((0 : ℕ), (5 : ℚ)), (1, 5)] : List (ℕ × ℚ)).get ⟨i, hi⟩).1 ∧
      (∀ p ∈ ([((0 : ℕ), (5 : ℚ)), (1, 5)] : List (ℕ × ℚ)),
        (([((0 : ℕ), (5 : ℚ)), (1, 5)] : List (ℕ × ℚ)).get ⟨i, hi⟩).2 ≤ p.2) ∧
      (∀ j (hj : j < ([((0 : ℕ), (5 : ℚ)), (1, 5)] : List (ℕ × ℚ)).length),
        j < i →
        (([((0 : ℕ), (5 : ℚ)), (1, 5)] : List (ℕ × ℚ)).get ⟨i, hi⟩).2
          < (([((0 : ℕ), (5 : ℚ)), (1, 5)] : List (ℕ × ℚ)).get ⟨j, hj⟩).2) :=
  ⟨by simp, selectBestModel_stable_minimum [((0 : ℕ), (5 : ℚ)), (1, 5)]
    (by simp)⟩

/-- The best validation loss among folds `0, .., f-1` of one estimator,
starting from tracker value `t` (`⊤` models `np.inf`). -/
def bestSoFarFrom {M : Type} (loss : M → ℕ → ℚ) (m : M) (t : WithTop ℚ)
    (f : ℕ) : WithTop ℚ :=
  ((List.range f).map (fun g => ((loss m g : ℚ) : WithTop ℚ))).foldl min t

theorem foldStepL_best {M : Type} (m : M) (fold : ℕ) (l : ℚ)
    (s : CVState M) :
    (foldStepL m fold l s).best_loss_fold
      = min s.best_loss_fold (l : WithTop ℚ) := by
  unfold foldStepL
  by_cases h : (l : WithTop ℚ) < s.best_loss_fold
  · rw [if_pos h]
    exact (min_eq_right (le_of_lt h)).symm
  · rw [if_neg h]
    exact (min_eq_left (le_of_not_lt h)).symm

theorem foldStepL_saves {M : Type} (m : M) (fold : ℕ) (l : ℚ)
    (s : CVState M) :
    (foldStepL m fold l s).saves
      = s.saves ++ (if (l : WithTop ℚ) < s.best_loss_fold
          then [(m, fold, l)] else []) := by
  unfold foldStepL
  by_cases h : (l : WithTop ℚ) < s.best_loss_fold
  · rw [if_pos h, if_pos h]
  · rw [if_neg h, if_neg h, List.append_nil]

theorem runFolds_spec {M : Type} (loss : M → ℕ → ℚ) (m : M) :
    ∀ (n : ℕ) (s : CVState M),
      (runFolds loss m n s).best_loss_fold
        = bestSoFarFrom loss m s.best_loss_fold n ∧
      (runFolds loss m n s).saves
        = s.saves ++ ((List.range n).filter (fun f =>
            decide ((loss m f : WithTop ℚ)
              < bestSoFarFrom loss m s.best_loss_fold f))).map
            (fun f => (m, f, loss m f)) := by
  intro n
  induction n with
  | zero =>
      intro s
      exact ⟨rfl, by simp [runFolds, bestSoFarFrom]⟩
  | succ n ih =>
      intro s
      obtain ⟨ihb, ihs⟩ := ih s
      have hstep : runFolds loss m (n + 1) s
          = foldStep loss m (runFolds loss m n s) n := by
        unfold runFolds
        rw [List.range_succ, List.foldl_append, List.foldl_cons,
          List.foldl_nil]
      have hbsf : bestSoFarFrom loss m s.best_loss_fold (n + 1)
          = min (bestSoFarFrom loss m s.best_loss_fold n)
              ((loss m n : ℚ) : WithTop ℚ) := by
        unfold bestSoFarFrom
        rw [List.range_succ, List.map_append, List.foldl_append,
          List.map_cons, List.map_nil, List.foldl_cons, List.foldl_nil]
      constructor
      · rw [hstep]
        show (foldStepL m n (loss m n) (runFolds loss m n s)).best_loss_fold = _
        rw [foldStepL_best, ihb, hbsf]
      · rw [hstep]
        show (foldStepL m n (loss m n) (runFolds loss m n s)).saves = _
        rw [foldStepL_saves, ihs, ihb, List.range_succ, List.filter_append,
          List.map_append, List.append_assoc]
        congr 1
        simp only [List.filter_cons, List.filter_nil]
        by_cases h : (loss m n : WithTop ℚ)
            < bestSoFarFrom loss m s.best_loss_fold n
        · rw [if_pos h]
          simp [h]
        · rw [if_neg h]
          simp [h]

theorem cross_validate_best_top {M : Type} [DecidableEq M]
    (loss : M → ℕ → ℚ) (n_folds : ℕ) :
    ∀ (models : List M) (s : CVState M), s.best_loss_fold = ⊤ →
      (cross_validate loss n_folds models s).best_loss_fold = ⊤ := by
  intro models
  induction models with
  | nil => intro s hs; exact hs
  | cons m ms ih =>
      intro s _
      show (cross_validate loss n_folds ms
        (modelStep loss n_folds s m)).best_loss_fold = ⊤
      exact ih (modelStep loss n_folds s m) rfl

/-- C4: (a) entering any estimator's fold loop during `cross_validate`
(i.e. after any number of already-processed estimators) the best-so-far
tracker is `np.inf`; (b) starting from a tracker at `np.inf`, the fold loop
for estimator `m` writes a checkpoint at exactly those folds whose loss is
strictly smaller than the least loss of the earlier folds, the written
value being that fold's loss, and no checkpoint event occurs at any other
fold; (c) the tracker afterwards equals the least loss over all folds. -/
theorem crossValidate_checkpoint_policy {M : Type} [DecidableEq M]
    (loss : M → ℕ → ℚ) (n_folds : ℕ) (ms : List M) (m : M) (s : CVState M)
    (hs : s.best_loss_fold = ⊤) :
    (cross_validate loss n_folds ms (initState (M := M))).best_loss_fold
      = ⊤ ∧
    (runFolds loss m n_folds s).saves
      = s.saves ++ ((List.range n_folds).filter (fun f =>
          decide ((loss m f : WithTop ℚ) < bestSoFarFrom loss m ⊤ f))).map
          (fun f => (m, f, loss m f)) ∧
    (runFolds loss m n_folds s).best_loss_fold
      = bestSoFarFrom loss m ⊤ n_folds := by
  obtain ⟨hb, hsv⟩ := runFolds_spec loss m n_folds s
  rw [hs] at hb hsv
  exact ⟨cross_validate_best_top loss n_folds ms initState rfl, hsv, hb⟩

/-- Witness for C4: one already-processed estimator, then estimator `0`
with three folds of losses `3, 5, 2`: checkpoints are written at folds `0`
and `2` only. -/
theorem crossValidate_checkpoint_policy_witness :
    ((initState (M := ℕ)).best_loss_fold = ⊤) ∧
    ((cross_validate (fun _ f => if f = 0 then 3 else if f = 1 then 5 else 2)
        3 [1] (initState (M := ℕ))).best_loss_fold = ⊤ ∧
     (runFolds (fun _ f => if f = 0 then 3 else if f = 1 then 5 else 2) 0 3
        (initState (M := ℕ))).saves
       = (initState (M := ℕ)).saves ++ ((List.range 3).filter (fun f =>
           decide ((((fun _ f => if f = 0 then 3 else if f = 1 then 5 else 2)
               : ℕ → ℕ → ℚ) 0 f : WithTop ℚ)
             < bestSoFarFrom
                 (fun _ f => if f = 0 then 3 else if f = 1 then 5 else 2)
                 0 ⊤ f))).map
           (fun f => (0, f,
             ((fun _ f => if f = 0 then 3 else if f = 1 then 5 else 2)
               : ℕ → ℕ → ℚ) 0 f)) ∧
     (runFolds (fun _ f => if f = 0 then 3 else if f = 1 then 5 else 2) 0 3
        (initState (M := ℕ))).best_loss_fold
       = bestSoFarFrom
           (fun _ f => if f = 0 then 3 else if f = 1 then 5 else 2) 0 ⊤ 3) :=
  ⟨rfl, crossValidate_checkpoint_policy
    (fun _ f => if f = 0 then 3 else if f = 1 then 5 else 2) 3 [1] 0
    (initState (M := ℕ)) rfl⟩

/-- A hyperparameter value as stored in the persisted record: a number
(integers and floats), a string (e.g. the `"regressor"` family name or a
categorical choice), or JSON null (`max_features` may be sampled as
`None`). -/
inductive HVal
  | num : ℚ → HVal
  | str : String → HVal
  | null
deriving DecidableEq

/-- A JSON value, as produced by `json.dumps` on the flat hyperparameter
dict. -/
inductive JVal
  | jnum : ℚ → JVal
  | jstr : String → JVal
  | jnull
  | jobj : List (String × JVal) → JVal

def hvalToJson : HVal → JVal
  | .num q => .jnum q
  | .str s => .jstr s
  | .null => .jnull

def jsonToHval : JVal → Option HVal
  | .jnum q => some (.num q)
  | .jstr s => some (.str s)
  | .jnull => some .null
  | .jobj _ => none

/-- `Optimize.write_to_json` (tuning_hyperparams.py lines 98-108):
`json.dumps(best_params)` written to `best_hyperparams.json`; the value is
the persisted file's content (file I/O itself is out-of-scope per spec
§1). -/
def write_to_json (best_params : List (String × HVal)) : JVal :=
  .jobj (best_params.map (fun kv => (kv.1, hvalToJson kv.2)))

/-- Decode the fields of a flat JSON object, failing on any nested
object. -/
def decodeFields : List (String × JVal) → Option (List (String × HVal))
  | [] => some []
  | kv :: rest =>
      match jsonToHval kv.2, decodeFields rest with
      | some v, some tail => some ((kv.1, v) :: tail)
      | _, _ => none

/-- `json.load` on the hyperparameter file (main.py line 291): a flat JSON
object decodes back to a key→value record. -/
def jsonLoadObj : JVal → Option (List (String × HVal))
  | .jobj fields => decodeFields fields
  | _ => none

/-- `Run._get_hyperparams` (main.py lines 281-304): load the record, then
`{k: v for k, v in lgb_params.items() if k != "regressor"}` — drop only the
reserved family key. -/
def get_hyperparams (file : JVal) : Option (List (String × HVal)) :=
  (jsonLoadObj file).map (List.filter (fun kv => kv.1 != "regressor"))

/-- `lgb.LGBMRegressor(**lgb_params)` — the estimator configuration the
trainer builds from the read-back record (main.py line 311). -/
structure LGBMRegressor where
  params : List (String × HVal)
deriving DecidableEq

/-- A fitted estimator state. -/
structure FittedLGBM where
  config : LGBMRegressor
  trainX : List (List ℚ)
  trainY : List ℚ

/-- Modelled from the spec: the concrete regression algorithms live outside
this repository and are "treated as opaque fit/predict services" with
contract `fit(features, target) -> model` (spec §1, §8 round-trip
property), so `fit` is a total service returning a fitted state. -/
def LGBMRegressor.fitModel (r : LGBMRegressor) (X : List (List ℚ))
    (y : List ℚ) : Except PyErr FittedLGBM :=
  .ok { config := r, trainX := X, trainY := y }

theorem jsonLoad_writeToJson (best_params : List (String × HVal)) :
    jsonLoadObj (write_to_json best_params) = some best_params := by
  show decodeFields (best_params.map (fun kv => (kv.1, hvalToJson kv.2)))
    = some best_params
  induction best_params with
  | nil => rfl
  | cons kv rest ih =>
      have hval : jsonToHval (hvalToJson kv.2) = some kv.2 := by
        cases kv.2 <;> rfl
      simp [List.map_cons, decodeFields, hval, ih]

/-- C8: the record written by the optimizer (the best trial's sampled
values plus the reserved `"regressor"` key), read back by the trainer,
yields the same name→value mapping with exactly the `"regressor"` key
removed, and the estimator configuration built from it fits without error
(fit being the spec's opaque total service). -/
theorem hyperparams_roundtrip (best_params : List (String × HVal)) :
    get_hyperparams (write_to_json best_params)
      = some (best_params.filter (fun kv => kv.1 != "regressor")) ∧
    ∀ (X : List (List ℚ)) (y : List ℚ),
      ∃ fitted,
        (LGBMRegressor.mk
            (best_params.filter (fun kv => kv.1 != "regressor"))).fitModel
            X y
          = Except.ok fitted := by
  constructor
  · show (jsonLoadObj (write_to_json best_params)).map
        (List.filter (fun kv => kv.1 != "regressor")) = _
    rw [jsonLoad_writeToJson]
    rfl
  · intro X y
    exact ⟨_, rfl⟩

/-- The optuna trial oracle (spec §1: hyperparameter search is an opaque
optimizer oracle): the `suggest_categorical`, `suggest_int` and
`suggest_float` sampling services (the last with its `log` flag). -/
structure Trial where
  suggestCategorical : String → List HVal → HVal
  suggestInt : String → ℤ → ℤ → ℤ
  suggestFloat : String → ℚ → ℚ → Bool → ℚ

/-- Result of one `Optimize.optimize` trial: the train/validation split
`((X_train, X_valid), (y_train, y_valid))`, the sampled family, its
parameter dict, and the validation loss. -/
structure TrialEval where
  split : (List (List ℚ) × List (List ℚ)) × (List ℚ × List ℚ)
  regressor_name : HVal
  params : List (String × HVal)
  error : ℚ

/-- `sklearn.metrics.mean_squared_error`. -/
def mseQ (y_true y_pred : List ℚ) : ℚ :=
  meanQ ((y_true.zip y_pred).map (fun p => (p.1 - p.2) ^ 2))

/-- `Optimize.optimize` (tuning_hyperparams.py lines 21-96): build the
feature matrix and target from the training table, split once with
`train_test_split(X, y, test_size=0.2, random_state=23)` (the split
routine itself is an opaque external service, passed in as a deterministic
function of its arguments), sample the regressor family and its
hyperparameters from the trial, fit and predict through the opaque
`fitPredict` service, and return the validation MSE. -/
def optimize
    (train_test_split : List (List ℚ) → List ℚ → ℚ → ℕ →
      (List (List ℚ) × List (List ℚ)) × (List ℚ × List ℚ))
    (fitPredict : HVal → List (String × HVal) → List (List ℚ) → List ℚ →
      List (List ℚ) → List ℚ)
    (train_df : List Row) (trial : Trial) : TrialEval :=
  let X := train_df.map Row.feats
  let y := train_df.map Row.salary
  let sp := train_test_split X y (1 / 5) 23
  let regressor_name := trial.suggestCategorical "regressor"
    [HVal.str "lgbr", HVal.str "rf"]
  let params :=
    if regressor_name = HVal.str "lgbr" then
      [("metric", HVal.str "mean_squared_error"),
       ("verbosity", HVal.num (-1)),
       ("n_jobs", HVal.num (-1)),
       ("n_estimators",
         HVal.num (trial.suggestInt "n_estimators" 100 200 : ℚ)),
       ("reg_alpha",
         HVal.num (trial.suggestFloat "reg_alpha" (1 / 100000000) 10 true)),
       ("reg_lambda",
         HVal.num (trial.suggestFloat "reg_lambda" (1 / 100000000) 10 true)),
       ("num_leaves", HVal.num (trial.suggestInt "num_leaves" 100 500 : ℚ)),
       ("max_depth", HVal.num (trial.suggestInt "max_depth" 4 30 : ℚ)),
       ("learning_rate",
         HVal.num (trial.suggestFloat "learning_rate" (1 / 100) 1 true)),
       ("colsample_bytree",
         HVal.num (trial.suggestFloat "colsample_bytree" (3 / 10) 1 false)),
       ("subsample",
         HVal.num (trial.suggestFloat "subsample" (2 / 5) 1 false)),
       ("subsample_freq",
         HVal.num (trial.suggestInt "subsample_freq" 1 7 : ℚ)),
       ("min_child_samples",
         HVal.num (trial.suggestInt "min_child_samples" 5 100 : ℚ))]
    else
      [("n_jobs", HVal.num (-1)),
       ("n_estimators",
         HVal.num (trial.suggestInt "n_estimators" 100 500 : ℚ)),
       ("max_depth", HVal.num (trial.suggestInt "max_depth" 4 30 : ℚ)),
       ("max_features", trial.suggestCategorical "max_features"
          [HVal.str "log2", HVal.str "sqrt", HVal.null]),
       ("min_samples_split",
         HVal.num (trial.suggestInt "min_samples_split" 2 10 : ℚ))]
  let y_pred := fitPredict regressor_name params sp.1.1 sp.2.1 sp.1.2
  { split := sp, regressor_name := regressor_name, params := params,
    error := mseQ sp.2.2 y_pred }

/-- C9: every trial of the optimizer splits the engineered training rows
with the same fixed ratio `0.2` and fixed seed `23`, before and
independently of any trial sampling — so any two trials over the same
training table receive identical train/validation partitions. -/
theorem optimize_split_trial_independent
    (train_test_split : List (List ℚ) → List ℚ → ℚ → ℕ →
      (List (List ℚ) × List (List ℚ)) × (List ℚ × List ℚ))
    (fitPredict : HVal → List (String × HVal) → List (List ℚ) → List ℚ →
      List (List ℚ) → List ℚ)
    (train_df : List Row) (t1 t2 : Trial) :
    (optimize train_test_split fitPredict train_df t1).split
      = (optimize train_test_split fitPredict train_df t2).split ∧
    (optimize train_test_split fitPredict train_df t1).split
      = train_test_split (train_df.map Row.feats) (train_df.map Row.salary)
          (1 / 5) 23 :=
  ⟨rfl, rfl⟩

/-- The fold loop of `cross_validate` when `model.fit` may raise
(`_run_model_cv`, main.py lines 99-128, contains no exception handling):
an error aborts the loop at once; a successful fit yields the fold's loss
and the fold is processed as in `foldStepL`.  The second component lists
the attempted `(model, fold)` fit calls in order. -/
def runFoldsE {M ε : Type} (fit : M → ℕ → Except ε ℚ) (m : M) :
    List ℕ → CVState M → Except ε (CVState M) × List (M × ℕ)
  | [], s => (Except.ok s, [])
  | f :: fs, s =>
      match fit m f with
      | Except.error e => (Except.error e, [(m, f)])
      | Except.ok l =>
          let res := runFoldsE fit m fs (foldStepL m f l s)
          (res.1, (m, f) :: res.2)

/-- `Model.cross_validate` with a fallible fit: the loop over
`self.models` is sequential and unguarded, so the first error propagates
out of the whole sweep. -/
def cross_validateE {M ε : Type} [DecidableEq M] (fit : M → ℕ → Except ε ℚ)
    (n_folds : ℕ) :
    List M → CVState M → Except ε (CVState M) × List (M × ℕ)
  | [], s => (Except.ok s, [])
  | m :: ms, s =>
      match runFoldsE fit m (List.range n_folds) s with
      | (Except.error e, tr) => (Except.error e, tr)
      | (Except.ok s1, tr) =>
          let s2 : CVState M :=
            { s1 with best_loss_fold := ⊤,
                      mean_mse := assocSet s1.mean_mse m (meanQ s1.fold_mse) }
          let res := cross_validateE fit n_folds ms s2
          (res.1, tr ++ res.2)

theorem runFoldsE_ok {M ε : Type} (fit : M → ℕ → Except ε ℚ) (m : M) :
    ∀ (fs : List ℕ) (s : CVState M),
      (∀ f ∈ fs, ∃ l, fit m f = Except.ok l) →
      ∃ s1, runFoldsE fit m fs s
        = (Except.ok s1, fs.map (fun f => (m, f))) := by
  intro fs
  induction fs with
  | nil => intro s _; exact ⟨s, rfl⟩
  | cons f fs ih =>
      intro s hok
      obtain ⟨l, hl⟩ := hok f (List.mem_cons_self f fs)
      obtain ⟨s1, hs1⟩ := ih (foldStepL m f l s)
        (fun g hg => hok g (List.mem_cons_of_mem f hg))
      refine ⟨s1, ?_⟩
      simp only [runFoldsE, List.append_eq, hl, hs1, List.map_cons]

theorem runFoldsE_err {M ε : Type} (fit : M → ℕ → Except ε ℚ) (m : M)
    (f : ℕ) (e : ε) (he : fit m f = Except.error e) :
    ∀ (fs1 fs2 : List ℕ) (s : CVState M),
      (∀ g ∈ fs1, ∃ l, fit m g = Except.ok l) →
      runFoldsE fit m (fs1 ++ f :: fs2) s
        = (Except.error e, (fs1 ++ [f]).map (fun g => (m, g))) := by
  intro fs1
  induction fs1 with
  | nil =>
      intro fs2 s _
      simp only [List.nil_append, runFoldsE, he, List.map_cons, List.map_nil]
  | cons g gs ih =>
      intro fs2 s hok
      obtain ⟨l, hl⟩ := hok g (List.mem_cons_self g gs)
      simp only [List.cons_append, runFoldsE, List.append_eq, hl,
        ih fs2 (foldStepL m g l s)
          (fun x hx => hok x (List.mem_cons_of_mem g hx)),
        List.map_cons]

/-- C10: if, during `cross_validate`, the fit of estimator `m` raises at
fold `f` — every earlier registered estimator fitting cleanly on all folds
and `m` fitting cleanly on folds before `f` — then the whole sweep returns
that error: the attempted fits are exactly all folds of the earlier
estimators followed by `m`'s folds `0..f` (no retry of the failing fold,
no later fold of `m`, and no subsequently registered estimator is
attempted). -/
theorem crossValidate_failfast {M ε : Type} [DecidableEq M]
    (fit : M → ℕ → Except ε ℚ) (n_folds : ℕ) (ms2 : List M) (m : M)
    (f : ℕ) (e : ε)
    (hm : ∀ g < f, ∃ l, fit m g = Except.ok l)
    (hf : f < n_folds)
    (he : fit m f = Except.error e) :
    ∀ (pr : List M) (s : CVState M),
      (∀ mp ∈ pr, ∀ g < n_folds, ∃ l, fit mp g = Except.ok l) →
      (cross_validateE fit n_folds (pr ++ m :: ms2) s).1 = Except.error e ∧
      (cross_validateE fit n_folds (pr ++ m :: ms2) s).2
        = pr.flatMap (fun mp => (List.range n_folds).map (fun g => (mp, g)))
          ++ (List.range (f + 1)).map (fun g => (m, g)) := by
  have hsplit : List.range n_folds
      = List.range f ++ f :: (List.range (n_folds - (f + 1))).map
          ((f + 1) + ·) := by
    have h1 : n_folds = (f + 1) + (n_folds - (f + 1)) := by omega
    calc List.range n_folds
        = List.range ((f + 1) + (n_folds - (f + 1))) := by rw [← h1]
      _ = List.range (f + 1)
            ++ (List.range (n_folds - (f + 1))).map ((f + 1) + ·) :=
          List.range_add _ _
      _ = (List.range f ++ [f])
            ++ (List.range (n_folds - (f + 1))).map ((f + 1) + ·) := by
          rw [List.range_succ]
      _ = List.range f ++ f :: (List.range (n_folds - (f + 1))).map
            ((f + 1) + ·) := by
          rw [List.append_assoc]
          rfl
  intro pr
  induction pr with
  | nil =>
      intro s _
      have herr := runFoldsE_err fit m f e he (List.range f)
        ((List.range (n_folds - (f + 1))).map ((f + 1) + ·)) s
        (fun g hg => hm g (List.mem_range.mp hg))
      rw [← hsplit] at herr
      rw [← List.range_succ] at herr
      have hcv : cross_validateE fit n_folds (m :: ms2) s
          = (Except.error e, (List.range (f + 1)).map (fun g => (m, g))) := by
        simp only [cross_validateE, herr]
      refine ⟨?_, ?_⟩
      · rw [List.nil_append, hcv]
      · rw [List.nil_append, hcv]
        simp
  | cons mp prs ih =>
      intro s hok
      obtain ⟨s1, hs1⟩ := runFoldsE_ok fit mp (List.range n_folds) s
        (fun g hg => hok mp (List.mem_cons_self mp prs) g
          (List.mem_range.mp hg))
      have hrest : ∀ x ∈ prs, ∀ g < n_folds, ∃ l, fit x g = Except.ok l :=
        fun x hx => hok x (List.mem_cons_of_mem mp hx)
      simp only [List.cons_append, cross_validateE, List.append_eq, hs1]
      constructor
      · exact (ih _ hrest).1
      · rw [(ih _ hrest).2, List.flatMap_cons, List.append_assoc]

/-- Witness for C10: estimators `[7, 8, 9]` with two folds; estimator `8`'s
fit raises (error code 42) at fold 1; estimator 7 fits all folds and 8 fits
fold 0.  The sweep errors after attempting `(7,0), (7,1), (8,0), (8,1)` —
estimator 9 is never attempted. -/
theorem crossValidate_failfast_witness :
    (∀ g < 1, ∃ l : ℚ,
      (fun (mo fo : ℕ) => if mo = 8 ∧ fo = 1
          then (Except.error 42 : Except ℕ ℚ) else Except.ok 0) 8 g
        = Except.ok l) ∧
    (1 < 2) ∧
    ((fun (mo fo : ℕ) => if mo = 8 ∧ fo = 1
        then (Except.error 42 : Except ℕ ℚ) else Except.ok 0) 8 1
      = Except.error 42) ∧
    (∀ mp ∈ [7], ∀ g < 2, ∃ l : ℚ,
      (fun (mo fo : ℕ) => if mo = 8 ∧ fo = 1
          then (Except.error 42 : Except ℕ ℚ) else Except.ok 0) mp g
        = Except.ok l) ∧
    ((cross_validateE
        (fun (mo fo : ℕ) => if mo = 8 ∧ fo = 1
          then (Except.error 42 : Except ℕ ℚ) else Except.ok 0)
        2 ([7] ++ 8 :: [9]) (initState (M := ℕ))).1 = Except.error 42 ∧
     (cross_validateE
        (fun (mo fo : ℕ) => if mo = 8 ∧ fo = 1
          then (Except.error 42 : Except ℕ ℚ) else Except.ok 0)
        2 ([7] ++ 8 :: [9]) (initState (M := ℕ))).2
       = [7].flatMap (fun mp => (List.range 2).map (fun g => (mp, g)))
         ++ (List.range (1 + 1)).map (fun g => (8, g))) := by
  have hm : ∀ g < 1, ∃ l : ℚ,
      (fun (mo fo : ℕ) => if mo = 8 ∧ fo = 1
          then (Except.error 42 : Except ℕ ℚ) else Except.ok 0) 8 g
        = Except.ok l := by
    intro g hg
    have hg0 : g = 0 := by omega
    subst hg0
    exact ⟨0, rfl⟩
  have hok : ∀ mp ∈ [7], ∀ g < 2, ∃ l : ℚ,
      (fun (mo fo : ℕ) => if mo = 8 ∧ fo = 1
          then (Except.error 42 : Except ℕ ℚ) else Except.ok 0) mp g
        = Except.ok l := by
    intro mp hmp g _
    rw [List.mem_singleton] at hmp
    subst hmp
    exact ⟨0, rfl⟩
  exact ⟨hm, by omega, rfl, hok,
    crossValidate_failfast
      (fun (mo fo : ℕ) => if mo = 8 ∧ fo = 1
        then (Except.error 42 : Except ℕ ℚ) else Except.ok 0)
      2 [9] 8 1 42 hm (by omega) rfl [7] (initState (M := ℕ)) hok⟩

end SalaryPred
